import Mathlib

/-!
Shallow embedding of `api/strava-ics.ts` (Vercel serverless endpoint turning a
Strava activity feed into an ICS calendar), together with proofs about the
claims of its specification.

Modelling conventions, used throughout:
* JavaScript strings are `String`; absent (`undefined`/`null`) string fields
  are modelled as `""`, which coincides with JS falsiness for the `||`,
  `filter(Boolean)` and truthiness checks the source performs on them.
* Strava's numeric JSON fields that are integral in practice (`id`,
  `elapsed_time`, `moving_time`) are `Nat`; the metric fields (`distance`,
  `total_elevation_gain`) are `ℚ` (floats idealised as rationals).
* Instants are epoch milliseconds (`Int`), as in JS `Date.getTime()`;
  an Invalid Date (NaN time value) is `Option.none`.
* Fallible upstream HTTP calls are `Except String` values carrying the message
  that `jfetch` would throw.
-/

namespace StravaIcs

/-- JS `x || y` for strings: `x` unless it is falsy (empty/absent). -/
def jsOr (x y : String) : String := if x = "" then y else x

/-- Decimal digits, most significant first; structural recursion on a fuel
bound (any fuel above the digit count gives the digits of `n`). -/
def natDigitsAux : Nat → Nat → List Char
  | 0, _ => []
  | fuel + 1, n =>
    if n < 10 then [Char.ofNat (48 + n)]
    else natDigitsAux fuel (n / 10) ++ [Char.ofNat (48 + n % 10)]

/-- Decimal digits of a natural number, most significant first (the characters
of JS `String(n)` for a non-negative integer). -/
def natDigits (n : Nat) : List Char := natDigitsAux (n + 1) n

/-- JS `String(n)` for a non-negative integer. -/
def jsStringOfNat (n : Nat) : String := ⟨natDigits n⟩

/-- JS `toLowerCase` on the ASCII range, one character. -/
def lowerChar (c : Char) : Char :=
  if 65 ≤ c.toNat ∧ c.toNat ≤ 90 then Char.ofNat (c.toNat + 32) else c

/-- JS `toLowerCase` on the ASCII range (the range Strava sport types and the
`sport` query parameter use). -/
def toLowerStr (s : String) : String := ⟨s.data.map lowerChar⟩

/-- JS `String(i)` / `Number.prototype.toString` for an integer. -/
def jsStringOfInt (i : Int) : String :=
  if i < 0 then "-" ++ jsStringOfNat i.natAbs else jsStringOfNat i.natAbs

/-- JS `s.padStart(2, "0")`. -/
def jsPad2 (s : String) : String :=
  if s.length = 0 then "00" else if s.length = 1 then "0" ++ s else s

-- `toTitleCase` is present in the source but never called; omitted.

/-- Source `metersToKm` rounding step: JS `x.toFixed(2)` picks the integer `n`
minimising `|n / 100 - x|`, ties toward the larger `n`, i.e. `⌊100 x + 1/2⌋`. -/
def toFixed2 (x : ℚ) : String :=
  let n : Int := Int.floor (x * 100 + 1 / 2)
  (if n < 0 then "-" else "") ++ jsStringOfNat (n.natAbs / 100) ++ "." ++ jsPad2 (jsStringOfNat (n.natAbs % 100))

/-- Source `metersToKm`: `(m / 1000).toFixed(2)`. -/
def metersToKm (m : ℚ) : String := toFixed2 (m / 1000)

/-- Source `secondsToHMS` for integral second counts (`Math.floor` on a
non-negative integer is the identity; integer division plays its role). -/
def secondsToHMS (s : Nat) : String :=
  jsPad2 (jsStringOfNat (s / 3600)) ++ ":" ++ jsPad2 (jsStringOfNat (s % 3600 / 60)) ++ ":" ++ jsPad2 (jsStringOfNat (s % 60))

/-- JS `Math.round` (round half toward positive infinity). -/
def jsRound (x : ℚ) : Int := Int.floor (x + 1 / 2)

/-- One global single-character replacement, the effect of
`text.replace(/c/g, rep)` when the pattern is a single character. -/
def replaceAll (pat : Char) (rep : List Char) : List Char → List Char
  | [] => []
  | c :: rest => (if c = pat then rep else [c]) ++ replaceAll pat rep rest

/-- Source `icsEscape` on character lists: backslash, then newline, then comma,
then semicolon, each replaced globally, in that order. -/
def icsEscapeL (l : List Char) : List Char :=
  replaceAll ';' ['\\', ';'] (replaceAll ',' ['\\', ','] (replaceAll '\n' ['\\', 'n'] (replaceAll '\\' ['\\', '\\'] l)))

/-- Source `icsEscape`. -/
def icsEscape (s : String) : String := ⟨icsEscapeL s.data⟩

/-- Per-character view of `icsEscape` (proved to agree with it below). -/
def escChar (c : Char) : List Char :=
  if c = '\\' then ['\\', '\\']
  else if c = '\n' then ['\\', 'n']
  else if c = ',' then ['\\', ',']
  else if c = ';' then ['\\', ';']
  else [c]

/-- Modelled from the spec: "the calendar format's standard unescaping" of
TEXT values (RFC 5545): `\\` → backslash, `\n`/`\N` → newline, `\,` → comma,
`\;` → semicolon; it is not part of the source, which only escapes. -/
def icsUnescapeL : List Char → List Char
  | [] => []
  | [c] => [c]
  | c1 :: c2 :: rest =>
    if c1 = '\\' then (if c2 = 'n' ∨ c2 = 'N' then '\n' else c2) :: icsUnescapeL rest
    else c1 :: icsUnescapeL (c2 :: rest)

/-- Modelled from the spec: standard ICS unescaping, on `String`. -/
def icsUnescape (s : String) : String := ⟨icsUnescapeL s.data⟩

/-- Civil date (year, month 1..12, day 1..31) of a day count relative to
1970-01-01, per the proleptic Gregorian calendar (the conversion JS `Date`'s
`getUTCFullYear/Month/Date` perform). -/
def civilFromDays (z0 : Int) : Int × Int × Int :=
  let z := z0 + 719468
  let era := z / 146097
  let doe := z % 146097
  let yoe := (doe - doe / 1460 + doe / 36524 - doe / 146096) / 365
  let y := yoe + era * 400
  let doy := doe - (365 * yoe + yoe / 4 - yoe / 100)
  let mp := (5 * doy + 2) / 153
  let d := doy - (153 * mp + 2) / 5 + 1
  let m := if mp < 10 then mp + 3 else mp - 9
  (if m ≤ 2 then y + 1 else y, m, d)

/-- Day count relative to 1970-01-01 of a civil date (inverse of
`civilFromDays` on valid dates). -/
def daysFromCivil (y0 m d : Int) : Int :=
  let y := if m ≤ 2 then y0 - 1 else y0
  let era := y / 400
  let yoe := y - era * 400
  let doy := (153 * (if 2 < m then m - 3 else m + 9) + 2) / 5 + d - 1
  let doe := yoe * 365 + yoe / 4 - yoe / 100 + doy
  era * 146097 + doe - 719468

/-- Source `formatAsUTC` on an epoch-millisecond instant: `yyyymmddThhmmssZ`,
the year via `toString` (unpadded), every other component through
`String(n).padStart(2, "0")`. -/
def formatAsUTC (ms : Int) : String :=
  let days := ms / 86400000
  let secs := ms % 86400000 / 1000
  let c := civilFromDays days
  jsStringOfInt c.1 ++ jsPad2 (jsStringOfInt c.2.1) ++ jsPad2 (jsStringOfInt c.2.2) ++ "T"
    ++ jsPad2 (jsStringOfInt (secs / 3600)) ++ jsPad2 (jsStringOfInt (secs % 3600 / 60))
    ++ jsPad2 (jsStringOfInt (secs % 60)) ++ "Z"

/-- Source `formatAsUTC` applied to a possibly invalid `Date`: on an Invalid
Date every `getUTC*` call yields NaN and `String(NaN) = "NaN"`, so the
rendered text degenerates to the fixed NaN string. -/
def formatAsUTCOpt : Option Int → String
  | some ms => formatAsUTC ms
  | none => "NaNNaNNaNTNaNNaNNaNZ"

/-- A decimal digit, or `none`. -/
def readDigit (c : Char) : Option Nat :=
  if 48 ≤ c.toNat ∧ c.toNat ≤ 57 then some (c.toNat - 48) else none

/-- Read exactly `k` decimal digits onto the accumulator. -/
def readNat : Nat → Nat → List Char → Option (Nat × List Char)
  | 0, acc, cs => some (acc, cs)
  | _ + 1, _, [] => none
  | k + 1, acc, c :: rest =>
    match readDigit c with
    | some d => readNat k (acc * 10 + d) rest
    | none => none

/-- Consume one expected character. -/
def expectChar (c : Char) : List Char → Option (List Char)
  | [] => none
  | x :: xs => if x = c then some xs else none

/-- Gregorian leap year. -/
def isLeapYear (y : Int) : Bool := y % 4 = 0 && (y % 100 != 0 || y % 400 = 0)

/-- Length of a month of a given year. -/
def daysInMonth (y : Int) (m : Nat) : Nat :=
  if m = 2 then (if isLeapYear y then 29 else 28)
  else if m = 4 ∨ m = 6 ∨ m = 9 ∨ m = 11 then 30 else 31

/-- Models JS `new Date(s).getTime()` on UTC date-time strings of the exact
shape `YYYY-MM-DDTHH:MM:SSZ` (the shape of Strava's `start_date`): epoch
milliseconds, or `none` for an Invalid Date. Strings outside this shape are
conservatively mapped to `none`. -/
def parseISO (s : String) : Option Int :=
  match readNat 4 0 s.data with
  | none => none
  | some (y, r0) =>
  match expectChar '-' r0 with
  | none => none
  | some r1 =>
  match readNat 2 0 r1 with
  | none => none
  | some (mo, r2) =>
  match expectChar '-' r2 with
  | none => none
  | some r3 =>
  match readNat 2 0 r3 with
  | none => none
  | some (d, r4) =>
  match expectChar 'T' r4 with
  | none => none
  | some r5 =>
  match readNat 2 0 r5 with
  | none => none
  | some (h, r6) =>
  match expectChar ':' r6 with
  | none => none
  | some r7 =>
  match readNat 2 0 r7 with
  | none => none
  | some (mi, r8) =>
  match expectChar ':' r8 with
  | none => none
  | some r9 =>
  match readNat 2 0 r9 with
  | none => none
  | some (sec, r10) =>
  match expectChar 'Z' r10 with
  | none => none
  | some r11 =>
    if r11 = [] ∧ 1 ≤ mo ∧ mo ≤ 12 ∧ 1 ≤ d ∧ d ≤ daysInMonth (y : Int) mo ∧ h ≤ 23 ∧ mi ≤ 59 ∧ sec ≤ 59 then
      some ((daysFromCivil (y : Int) (mo : Int) (d : Int) * 86400 + (h : Int) * 3600 + (mi : Int) * 60 + (sec : Int)) * 1000)
    else none

/-- The subset of Strava activity fields the endpoint declares
(`interface StravaActivity`). Optional/nullable fields follow the modelling
conventions above: absent strings are `""`, optional numerics are `Option`. -/
structure StravaActivity where
  id : Nat
  name : String
  type : String
  sport_type : String
  start_date : String
  start_date_local : String
  timezone : String
  elapsed_time : Nat
  moving_time : Nat
  distance : ℚ
  total_elevation_gain : ℚ
  average_speed : Option ℚ
  max_speed : Option ℚ
  kudos_count : Option Nat
  location_city : String
  location_state : String
  location_country : String
  start_latlng : Option (ℚ × ℚ)
  end_latlng : Option (ℚ × ℚ)
  map_summary_polyline : Option String
deriving DecidableEq, Repr

/-- Handler line `const sport = (a.sport_type || a.type || "").toLowerCase()`. -/
def activitySport (a : StravaActivity) : String :=
  toLowerStr (jsOr a.sport_type (jsOr a.type ""))

/-- The per-record filter of the handler's inner loop: with an allow-list
present, keep a record iff its lowercased classification is `includes`-member
of the list; with no allow-list (`allowedSports` undefined) keep everything. -/
def keepActivity (allowedSports : Option (List String)) (a : StravaActivity) : Bool :=
  match allowedSports with
  | none => true
  | some l => l.contains (activitySport a)

/-- JS `s.split(",")` on the character level. -/
def splitComma : List Char → List (List Char)
  | [] => [[]]
  | c :: rest =>
    if c = ',' then [] :: splitComma rest
    else
      match splitComma rest with
      | [] => [[c]]
      | l :: ls => (c :: l) :: ls

/-- JS whitespace trim, on the character level. -/
def trimWs (l : List Char) : List Char :=
  ((l.dropWhile Char.isWhitespace).reverse.dropWhile Char.isWhitespace).reverse

/-- Handler line `allowedSports = sportsParam ? sportsParam.split(",").map(s => s.trim().toLowerCase()) : undefined`
(an absent or empty `sport` query parameter is falsy and yields no list). -/
def parseSports (sportsParam : String) : Option (List String) :=
  if sportsParam = "" then none
  else some ((splitComma sportsParam.data).map (fun l => ⟨(trimWs l).map lowerChar⟩))

/-- The body of the handler's inner `for (const a of batch)` loop: stop at the
cap, skip records the filter rejects, append the rest in order. -/
def addBatch (maxResults : Nat) (allowedSports : Option (List String)) :
    List StravaActivity → List StravaActivity → List StravaActivity
  | acc, [] => acc
  | acc, a :: rest =>
    if maxResults ≤ acc.length then acc
    else if keepActivity allowedSports a then addBatch maxResults allowedSports (acc ++ [a]) rest
    else addBatch maxResults allowedSports acc rest

/-- The handler's `while (activities.length < max)` pagination loop over the
batches the upstream returns for pages 1, 2, 3, …; a finite list models an
upstream whose pages past the end of the list are empty (`jfetch` returns `[]`
once the athlete's history is exhausted, which breaks the loop). -/
def fetchPages (maxResults : Nat) (allowedSports : Option (List String)) :
    List (List StravaActivity) → List StravaActivity → List StravaActivity
  | pages, acc =>
    if acc.length < maxResults then
      match pages with
      | [] => acc
      | batch :: rest =>
        if batch.isEmpty then acc
        else fetchPages maxResults allowedSports rest (addBatch maxResults allowedSports acc batch)
    else acc

/-- The same pagination loop, instrumented: the upstream is a function from
page number to batch, recursion is fuelled, and the returned second component
records which page numbers were requested, in request order. Used to state
that the loop starts at page 1, steps by one, and terminates. -/
def fetchTrace (upstream : Nat → List StravaActivity) (maxResults : Nat)
    (allowedSports : Option (List String)) :
    Nat → Nat → List StravaActivity → List StravaActivity × List Nat
  | 0, _, acc => (acc, [])
  | fuel + 1, page, acc =>
    if acc.length < maxResults then
      let batch := upstream page
      if batch.isEmpty then (acc, [page])
      else
        let r := fetchTrace upstream maxResults allowedSports fuel (page + 1) (addBatch maxResults allowedSports acc batch)
        (r.1, page :: r.2)
    else (acc, [])

/-- Source `buildEvent`'s `descParts` lines: the Sport / Distance / Moving /
Elapsed lines, the Elevation line when the gain is truthy (non-zero), and the
activity URL. -/
def descParts (a : StravaActivity) : List String :=
  ["Sport: " ++ jsOr a.sport_type a.type,
   "Distance: " ++ metersToKm a.distance ++ " km",
   "Moving: " ++ secondsToHMS a.moving_time,
   "Elapsed: " ++ secondsToHMS a.elapsed_time]
  ++ (if a.total_elevation_gain ≠ 0 then ["Elevation: " ++ jsStringOfInt (jsRound a.total_elevation_gain) ++ " m"] else [])
  ++ ["https://www.strava.com/activities/" ++ jsStringOfNat a.id]

/-- Source `buildEvent`, up to the final `.filter(Boolean).join("\r\n")`: the
ten content lines, the `LOCATION` slot being the empty string when all three
location fields are absent (removed by `filter(Boolean)` below). `nowMs` is
the `new Date()` wall-clock instant of the `DTSTAMP` line. -/
def buildEventRaw (a : StravaActivity) (nowMs : Int) : List String :=
  let startMs := parseISO a.start_date
  let endMs := startMs.map (fun t => t + (a.elapsed_time : Int) * 1000)
  let summary := "Strava: " ++ jsOr a.name a.sport_type
  let url := "https://www.strava.com/activities/" ++ jsStringOfNat a.id
  let description := icsEscape (String.intercalate "\n" (descParts a))
  let uid := jsStringOfNat a.id ++ "@strava-ics"
  let location :=
    if a.location_city ≠ "" ∨ a.location_state ≠ "" ∨ a.location_country ≠ "" then
      icsEscape (String.intercalate ", " (([a.location_city, a.location_state, a.location_country]).filter (fun s => s ≠ "")))
    else ""
  ["BEGIN:VEVENT",
   "UID:" ++ uid,
   "DTSTAMP:" ++ formatAsUTCOpt (some nowMs),
   "DTSTART:" ++ formatAsUTCOpt startMs,
   "DTEND:" ++ formatAsUTCOpt endMs,
   "SUMMARY:" ++ icsEscape summary,
   if location = "" then "" else "LOCATION:" ++ location,
   "DESCRIPTION:" ++ description,
   "URL:" ++ url,
   "END:VEVENT"]

/-- Source `buildEvent`'s line list after `.filter(Boolean)`. -/
def buildEventLines (a : StravaActivity) (nowMs : Int) : List String :=
  (buildEventRaw a nowMs).filter (fun s => s ≠ "")

/-- Source `buildEvent`: one VEVENT text block. -/
def buildEvent (a : StravaActivity) (nowMs : Int) : String :=
  String.intercalate "\r\n" (buildEventLines a nowMs)

/-- The fixed envelope-open lines of the success document. -/
def icsHeaderLines : List String :=
  ["BEGIN:VCALENDAR", "VERSION:2.0", "PRODID:-//NexClass//Strava ICS//EN",
   "NAME:Strava", "X-WR-CALNAME:Strava", "CALSCALE:GREGORIAN",
   "METHOD:PUBLISH", "X-WR-TIMEZONE:UTC"]

/-- The handler's success document: header lines, then the single `events`
entry (the event blocks joined by CRLF), then the closing line, all joined by
CRLF. -/
def buildIcs (activities : List StravaActivity) (nowMs : Int) : String :=
  String.intercalate "\r\n"
    (icsHeaderLines ++ [String.intercalate "\r\n" (activities.map (fun a => buildEvent a nowMs)), "END:VCALENDAR"])

/-- The handler's `catch` branch: the degraded single-event error document,
with `msg` the failure's message and `nowMs` the wall clock (`DTEND` is ten
minutes later). -/
def errorDoc (msg : String) (nowMs : Int) : String :=
  "BEGIN:VCALENDAR\r\nPRODID:-//Strava ICS Error//EN\r\nVERSION:2.0\r\nBEGIN:VEVENT\r\nSUMMARY:Strava ICS Error\r\nDESCRIPTION:"
    ++ icsEscape msg ++ "\r\nDTSTART:" ++ formatAsUTC nowMs ++ "\r\nDTEND:" ++ formatAsUTC (nowMs + 600000)
    ++ "\r\nEND:VEVENT\r\nEND:VCALENDAR"

/-- The process environment slice `getAccessToken` reads. -/
structure Env where
  client_id : Option String
  client_secret : Option String
  refresh_token : Option String
deriving DecidableEq, Repr

/-- JS falsiness of an optional environment string (`undefined` or `""`). -/
def jsFalsy : Option String → Bool
  | none => true
  | some s => s = ""

/-- The `!client_id || !client_secret || !refresh_token` guard. -/
def missingCreds (env : Env) : Bool :=
  jsFalsy env.client_id || jsFalsy env.client_secret || jsFalsy env.refresh_token

/-- One network request the handler may issue. -/
inductive NetCall where
  | tokenExchange : NetCall
  | activitiesPage : Nat → NetCall
deriving DecidableEq, Repr

/-- Source `getAccessToken`, instrumented with the network requests it issues:
with any credential falsy it throws `"Missing STRAVA env vars"` without any
request; otherwise it performs the token exchange, whose outcome
(`access_token`, or the message `jfetch` throws) is `tokenResp`. -/
def getAccessTokenRun (env : Env) (tokenResp : Except String String) :
    Except String String × List NetCall :=
  if missingCreds env then (Except.error "Missing STRAVA env vars", [])
  else (tokenResp, [NetCall.tokenExchange])

/-- The pagination loop over fallible page responses (`Except.error` is the
message `jfetch` throws on a non-ok page response, which aborts the loop and
discards the accumulator), instrumented with the page requests issued.
Past-the-end pages are empty, as in `fetchPages`. -/
def fetchPagesE (maxResults : Nat) (allowedSports : Option (List String)) :
    List (Except String (List StravaActivity)) → Nat → List StravaActivity →
    Except String (List StravaActivity) × List NetCall
  | pages, page, acc =>
    if acc.length < maxResults then
      match pages with
      | [] => (Except.ok acc, [NetCall.activitiesPage page])
      | Except.error e :: _ => (Except.error e, [NetCall.activitiesPage page])
      | Except.ok batch :: rest =>
        if batch.isEmpty then (Except.ok acc, [NetCall.activitiesPage page])
        else
          let r := fetchPagesE maxResults allowedSports rest (page + 1) (addBatch maxResults allowedSports acc batch)
          (r.1, NetCall.activitiesPage page :: r.2)
    else (Except.ok acc, [])

/-- The handler's whole try/catch, instrumented: authenticate, page through
activities, assemble the document; any failure's message is rendered through
`errorDoc`. Returns the response body and the network requests issued. -/
def handlerRun (env : Env) (tokenResp : Except String String)
    (pages : List (Except String (List StravaActivity)))
    (allowedSports : Option (List String)) (maxResults : Nat) (nowMs : Int) :
    String × List NetCall :=
  match getAccessTokenRun env tokenResp with
  | (Except.error e, calls) => (errorDoc e nowMs, calls)
  | (Except.ok _, calls) =>
    match fetchPagesE maxResults allowedSports pages 1 [] with
    | (Except.error e, calls2) => (errorDoc e nowMs, calls ++ calls2)
    | (Except.ok acts, calls2) => (buildIcs acts nowMs, calls ++ calls2)

/-- A JS number as the query-parameter handling observes it: NaN or a (finite)
rational value. -/
inductive JSNum where
  | nan : JSNum
  | num : ℚ → JSNum
deriving DecidableEq, Repr

/-- JS `Math.min` on two arguments: NaN-propagating minimum. -/
def jsMin : JSNum → JSNum → JSNum
  | JSNum.nan, _ => JSNum.nan
  | _, JSNum.nan => JSNum.nan
  | JSNum.num a, JSNum.num b => JSNum.num (min a b)

/-- JS `Math.max` on two arguments: NaN-propagating maximum. -/
def jsMax : JSNum → JSNum → JSNum
  | JSNum.nan, _ => JSNum.nan
  | _, JSNum.nan => JSNum.nan
  | JSNum.num a, JSNum.num b => JSNum.num (max a b)

/-- `true` iff every character is a decimal digit. -/
def allDigits (l : List Char) : Bool := l.all (fun c => 48 ≤ c.toNat && c.toNat ≤ 57)

/-- Value of a decimal digit string. -/
def digitsVal (l : List Char) : Nat := l.foldl (fun acc c => acc * 10 + (c.toNat - 48)) 0

/-- Split at the first `'.'`, if any. -/
def splitDot (l : List Char) : List Char × Option (List Char) :=
  match l.span (fun c => c ≠ '.') with
  | (a, []) => (a, none)
  | (a, _ :: b) => (a, some b)

/-- Models ECMAScript `Number(s)` on strings restricted to optionally signed
plain decimal numerals (optionally with a fractional part): the whitespace-trimmed
empty string is `0`, a decimal numeral denotes its value, and anything else —
in particular any string with a non-digit letter, such as `"abc"` — is NaN.
(Hex / exponent / `Infinity` forms are not modelled and also map to NaN.) -/
def jsNumber (s : String) : JSNum :=
  let t := trimWs s.data
  if t = [] then JSNum.num 0
  else
    let sgn : ℚ := if t.head? = some '-' then -1 else 1
    let t2 := if t.head? = some '-' ∨ t.head? = some '+' then t.tail else t
    match splitDot t2 with
    | (ip, none) =>
      if ip ≠ [] ∧ allDigits ip then JSNum.num (sgn * digitsVal ip) else JSNum.nan
    | (ip, some fp) =>
      if (ip ≠ [] ∨ fp ≠ []) ∧ allDigits ip ∧ allDigits fp then
        JSNum.num (sgn * ((digitsVal ip : ℚ) + (digitsVal fp : ℚ) / 10 ^ fp.length))
      else JSNum.nan

/-- Handler line `Math.max(1, Math.min(365, Number(req.query.sinceDays ?? 90)))`,
over the optional raw query-parameter string. -/
def effSinceDays (q : Option String) : JSNum :=
  jsMax (JSNum.num 1) (jsMin (JSNum.num 365) (match q with | none => JSNum.num 90 | some s => jsNumber s))

/-- Handler line `Math.max(1, Math.min(600, Number(req.query.max ?? 300)))`,
over the optional raw query-parameter string. -/
def effMax (q : Option String) : JSNum :=
  jsMax (JSNum.num 1) (jsMin (JSNum.num 600) (match q with | none => JSNum.num 300 | some s => jsNumber s))

/-- `true` iff the JS number is an integer within `[lo, hi]`. -/
def isIntInRange (x : JSNum) (lo hi : ℚ) : Bool :=
  match x with
  | JSNum.nan => false
  | JSNum.num q => q.den = 1 && lo ≤ q && q ≤ hi

/-- Split a character list at each CRLF pair. -/
def splitCRLF : List Char → List (List Char)
  | [] => [[]]
  | [c] => [[c]]
  | c1 :: c2 :: rest =>
    if c1 = '\r' ∧ c2 = '\n' then [] :: splitCRLF rest
    else
      match splitCRLF (c2 :: rest) with
      | [] => [[c1]]
      | l :: ls => (c1 :: l) :: ls

/-- The content lines of a document, split at CRLF. -/
def icsContentLines (doc : String) : List (List Char) := splitCRLF doc.data

/-- `true` iff no character is a carriage return or line feed. -/
def crlfFree (l : List Char) : Bool := l.all (fun c => !(c = '\r') && !(c = '\n'))

/-- Modelled from the spec: "a syntactically valid calendar document containing
exactly one event", restricted to the aspects at stake here (RFC 5545 content
lines): the CRLF-delimited lines open with `BEGIN:VCALENDAR` and close with
`END:VCALENDAR`, every line is non-empty and free of stray CR/LF characters,
and exactly one `BEGIN:VEVENT` / `END:VEVENT` pair occurs. -/
def validSingleEventIcs (doc : String) : Bool :=
  let ls := icsContentLines doc
  (ls.head? == some "BEGIN:VCALENDAR".data) &&
  (ls.getLast? == some "END:VCALENDAR".data) &&
  ls.all (fun l => !l.isEmpty && crlfFree l) &&
  (ls.count "BEGIN:VEVENT".data == 1) &&
  (ls.count "END:VEVENT".data == 1)

/-- The activities the upstream would yield before exhaustion: the batches up
to (excluding) the first empty page, concatenated in page order. Used to state
the fetch-loop claims. -/
def upstreamYield (pages : List (List StravaActivity)) : List StravaActivity :=
  (pages.takeWhile (fun b => !b.isEmpty)).flatten

/-- The "single activity, full fields" scenario record of the spec. -/
def morningRun : StravaActivity :=
  ⟨42, "Morning Run", "Run", "Run", "2024-01-01T08:00:00Z", "", "", 1830, 1800,
   5000, 30, none, none, none, "Vienna", "", "", none, none, none⟩

/-- A multi-day activity (elapsed time above two days). -/
def longTrek : StravaActivity :=
  ⟨43, "Long Trek", "Hike", "Hike", "2024-01-01T08:00:00Z", "", "", 200000, 150000,
   0, 0, none, none, none, "", "", "", none, none, none⟩

/-- An activity carrying neither a sport_type nor a type classification. -/
def untypedActivity : StravaActivity :=
  ⟨44, "Mystery", "", "", "2024-01-01T08:00:00Z", "", "", 60, 60, 0, 0,
   none, none, none, "", "", "", none, none, none⟩

/-- A ride, for the filter witnesses. -/
def eveningRide : StravaActivity :=
  ⟨45, "Evening Ride", "Ride", "Ride", "2024-01-02T18:00:00Z", "", "", 3600, 3500,
   0, 0, none, none, none, "", "", "", none, none, none⟩

/-- An activity with only the deprecated type classification. -/
def legacyRun : StravaActivity :=
  ⟨46, "Legacy Run", "Run", "", "2024-01-01T08:00:00Z", "", "", 60, 60, 0, 0,
   none, none, none, "", "", "", none, none, none⟩

theorem take_take_append {α : Type} (n : Nat) (xs ys : List α) :
    List.take n (List.take n xs ++ ys) = List.take n (xs ++ ys) := by
  rcases Nat.le_total xs.length n with h | h
  · rw [List.take_of_length_le h]
  · have h1 : n - (List.take n xs).length = 0 := by
      simp [List.length_take]
      omega
    have h2 : n - xs.length = 0 := by omega
    rw [List.take_append_eq_append_take, List.take_append_eq_append_take, h1, h2]
    simp [List.take_take]

theorem addBatch_eq (maxR : Nat) (al : Option (List String)) (batch acc : List StravaActivity)
    (h : acc.length ≤ maxR) :
    addBatch maxR al acc batch = List.take maxR (acc ++ batch.filter (keepActivity al)) := by
  induction batch generalizing acc with
  | nil => simp [addBatch, List.take_of_length_le h]
  | cons a rest ih =>
    by_cases hm : maxR ≤ acc.length
    · have he : acc.length = maxR := le_antisymm h hm
      rw [List.take_append_eq_append_take]
      simp [addBatch, hm, he, List.take_of_length_le]
    · have hlt : acc.length < maxR := lt_of_not_ge hm
      by_cases hk : keepActivity al a
      · rw [show addBatch maxR al acc (a :: rest) = addBatch maxR al (acc ++ [a]) rest from by
          simp [addBatch, hm, hk]]
        rw [ih (acc ++ [a]) (by simp; omega)]
        simp [List.filter_cons, hk, List.append_assoc]
      · rw [show addBatch maxR al acc (a :: rest) = addBatch maxR al acc rest from by
          simp [addBatch, hm, hk]]
        rw [ih acc h]
        simp [List.filter_cons, hk]

theorem addBatch_length_le (maxR : Nat) (al : Option (List String)) (batch acc : List StravaActivity)
    (h : acc.length ≤ maxR) : (addBatch maxR al acc batch).length ≤ maxR := by
  rw [addBatch_eq maxR al batch acc h]
  simp [List.length_take]

theorem fetchPages_eq (maxR : Nat) (al : Option (List String))
    (pages : List (List StravaActivity)) (acc : List StravaActivity) (h : acc.length ≤ maxR) :
    fetchPages maxR al pages acc =
      List.take maxR (acc ++ (upstreamYield pages).filter (keepActivity al)) := by
  induction pages generalizing acc with
  | nil =>
    by_cases hm : acc.length < maxR <;>
      simp [fetchPages, hm, upstreamYield, List.take_of_length_le h]
  | cons b rest ih =>
    by_cases hm : acc.length < maxR
    · by_cases hb : b.isEmpty
      · have hbnil : b = [] := List.isEmpty_iff.mp hb
        subst hbnil
        simp [fetchPages, hm, upstreamYield, List.takeWhile_cons, List.take_of_length_le h]
      · have hstep : fetchPages maxR al (b :: rest) acc = fetchPages maxR al rest (addBatch maxR al acc b) := by
          simp [fetchPages, hm, hb]
        rw [hstep, ih (addBatch maxR al acc b) (addBatch_length_le maxR al b acc h),
          addBatch_eq maxR al b acc h, take_take_append]
        have hyield : upstreamYield (b :: rest) = b ++ upstreamYield rest := by
          simp [upstreamYield, List.takeWhile_cons, hb]
        rw [hyield]
        simp [List.filter_append, List.append_assoc]
    · have he : acc.length = maxR := le_antisymm h (le_of_not_lt hm)
      rw [List.take_append_eq_append_take]
      simp [fetchPages, hm, he, List.take_of_length_le]

/-- C2: for every cap N in [1, 600] and every upstream page sequence that
would yield more than N activities passing the type filter, the pagination
loop accumulates exactly the first N matching records in upstream page order,
and the document therefore carries exactly N event blocks. -/
theorem claim_C2_cap_enforcement (N : Nat) (al : Option (List String))
    (pages : List (List StravaActivity)) (nowMs : Int)
    (h1 : 1 ≤ N) (h2 : N ≤ 600)
    (h3 : N < ((upstreamYield pages).filter (keepActivity al)).length) :
    fetchPages N al pages [] = List.take N ((upstreamYield pages).filter (keepActivity al)) ∧
    (fetchPages N al pages []).length = N ∧
    ((fetchPages N al pages []).map (fun a => buildEvent a nowMs)).length = N := by
  have hmain : fetchPages N al pages [] = List.take N ((upstreamYield pages).filter (keepActivity al)) := by
    have := fetchPages_eq N al pages [] (by simp)
    simpa using this
  refine ⟨hmain, ?_, ?_⟩ <;> rw [hmain] <;> simp [List.length_take] <;> omega

/-- C4: the accumulated sequence is the post-filter stream truncated at the
cap — with an allow-list present it is exactly the matching activities in
original relative order (the cap counting only kept records), and with no
allow-list every fetched activity is kept. -/
theorem claim_C4_type_filter (pages : List (List StravaActivity)) (maxR : Nat) (al : List String) :
    fetchPages maxR (some al) pages [] =
      List.take maxR ((upstreamYield pages).filter (fun a => al.contains (activitySport a))) ∧
    (((upstreamYield pages).filter (fun a => al.contains (activitySport a))).length ≤ maxR →
      fetchPages maxR (some al) pages [] =
        (upstreamYield pages).filter (fun a => al.contains (activitySport a))) ∧
    fetchPages maxR none pages [] = List.take maxR (upstreamYield pages) := by
  have hsome := fetchPages_eq maxR (some al) pages [] (by simp)
  have hnone := fetchPages_eq maxR none pages [] (by simp)
  have hkeep : keepActivity (some al) = fun a => al.contains (activitySport a) := rfl
  refine ⟨?_, ?_, ?_⟩
  · simpa [hkeep] using hsome
  · intro hle
    rw [(by simpa [hkeep] using hsome :
      fetchPages maxR (some al) pages [] =
        List.take maxR ((upstreamYield pages).filter (fun a => al.contains (activitySport a))))]
    exact List.take_of_length_le hle
  · rw [show keepActivity none = (fun _ : StravaActivity => true) from rfl, List.filter_true] at hnone
    simpa using hnone

theorem fetchTrace_pages_consecutive (u : Nat → List StravaActivity) (maxR : Nat)
    (al : Option (List String)) :
    ∀ fuel page acc, (fetchTrace u maxR al fuel page acc).2 =
      List.range' page (fetchTrace u maxR al fuel page acc).2.length := by
  intro fuel
  induction fuel with
  | zero => intro page acc; simp [fetchTrace]
  | succ f ih =>
    intro page acc
    by_cases hm : acc.length < maxR
    · by_cases hb : (u page).isEmpty
      · simp [fetchTrace, hm, hb]
      · simp only [fetchTrace, if_pos hm, if_neg hb]
        simp [List.range'_succ, ← ih (page + 1) (addBatch maxR al acc (u page))]
    · simp [fetchTrace, hm]

theorem fetchTrace_succ (u : Nat → List StravaActivity) (maxR : Nat)
    (al : Option (List String)) (fl page : Nat) (acc : List StravaActivity) :
    fetchTrace u maxR al (fl + 1) page acc =
      if acc.length < maxR then
        if (u page).isEmpty then (acc, [page])
        else
          ((fetchTrace u maxR al fl (page + 1) (addBatch maxR al acc (u page))).1,
            page :: (fetchTrace u maxR al fl (page + 1) (addBatch maxR al acc (u page))).2)
      else (acc, []) := rfl

theorem fetchTrace_stable_aux (u : Nat → List StravaActivity) (maxR : Nat)
    (al : Option (List String)) :
    ∀ d page acc fuel, u (page + d) = [] → d + 1 ≤ fuel →
      fetchTrace u maxR al fuel page acc = fetchTrace u maxR al (d + 1) page acc := by
  intro d
  induction d with
  | zero =>
    intro page acc fuel he hf
    obtain ⟨f, rfl⟩ := Nat.exists_eq_add_of_le hf
    cases f with
    | zero => rfl
    | succ f2 =>
      by_cases hm : acc.length < maxR
      · simp at he
        simp [fetchTrace, hm, he]
      · simp [fetchTrace, hm]
  | succ d ih =>
    intro page acc fuel he hf
    obtain ⟨f, rfl⟩ := Nat.exists_eq_add_of_le hf
    by_cases hm : acc.length < maxR
    · by_cases hb : (u page).isEmpty
      · rw [show d + 1 + 1 + f = (d + 1 + f) + 1 by omega]
        simp [fetchTrace, hm, hb]
      · have he2 : u ((page + 1) + d) = [] := by
          rw [show page + 1 + d = page + (d + 1) by omega]
          exact he
        rw [show d + 1 + 1 + f = (d + 1 + f) + 1 by omega,
          fetchTrace_succ u maxR al (d + 1 + f) page acc,
          fetchTrace_succ u maxR al (d + 1) page acc]
        simp only [if_pos hm, if_neg hb]
        rw [ih (page + 1) (addBatch maxR al acc (u page)) (d + 1 + f) he2 (by omega)]
    · rw [show d + 1 + 1 + f = (d + 1 + f) + 1 by omega]
      simp [fetchTrace_succ, hm]

/-- C3: the pagination loop requests consecutive page numbers starting at 1,
stops at the first empty page even when the post-filter count is still below
the cap (requesting nothing further), and terminates for every upstream with
an eventually empty page: once the fuel covers the first empty page the run is
independent of the fuel, i.e. the loop has stabilised. -/
theorem claim_C3_pagination (u : Nat → List StravaActivity) (maxR : Nat)
    (al : Option (List String)) (k : Nat) (hk : 1 ≤ k) (he : u k = []) :
    (∀ fuel, k ≤ fuel → fetchTrace u maxR al fuel 1 [] = fetchTrace u maxR al k 1 []) ∧
    (∀ fuel page acc, (fetchTrace u maxR al fuel page acc).2 =
      List.range' page (fetchTrace u maxR al fuel page acc).2.length) ∧
    (∀ fuel page acc, acc.length < maxR → u page = [] →
      fetchTrace u maxR al (fuel + 1) page acc = (acc, [page])) := by
  refine ⟨?_, fetchTrace_pages_consecutive u maxR al, ?_⟩
  · intro fuel hf
    have h1 : u (1 + (k - 1)) = [] := by
      rw [show 1 + (k - 1) = k by omega]
      exact he
    have h2 := fetchTrace_stable_aux u maxR al (k - 1) 1 [] fuel h1 (by omega)
    have h3 := fetchTrace_stable_aux u maxR al (k - 1) 1 [] k h1 (by omega)
    rw [h2, ← h3]
  · intro fuel page acc hm hz
    have hb : (u page).isEmpty := by simp [hz]
    simp [fetchTrace, hm, hb]

theorem claim_C2_cap_enforcement_witness :
    fetchPages 1 none [[morningRun], [eveningRide]] [] =
      List.take 1 ((upstreamYield [[morningRun], [eveningRide]]).filter (keepActivity none)) ∧
    (fetchPages 1 none [[morningRun], [eveningRide]] []).length = 1 ∧
    ((fetchPages 1 none [[morningRun], [eveningRide]] []).map (fun a => buildEvent a 0)).length = 1 :=
  claim_C2_cap_enforcement 1 none [[morningRun], [eveningRide]] 0 (by decide) (by decide) (by decide)

theorem claim_C3_pagination_witness :
    (fetchTrace (fun _ => ([] : List StravaActivity)) 5 none 3 1 [] =
      fetchTrace (fun _ => ([] : List StravaActivity)) 5 none 1 1 []) ∧
    ((fetchTrace (fun _ => ([] : List StravaActivity)) 5 none 3 1 []).2 =
      List.range' 1 (fetchTrace (fun _ => ([] : List StravaActivity)) 5 none 3 1 []).2.length) ∧
    (fetchTrace (fun _ => ([] : List StravaActivity)) 5 none (0 + 1) 2 [] = ([], [2])) :=
  ⟨(claim_C3_pagination (fun _ => []) 5 none 1 (by decide) rfl).1 3 (by decide),
   (claim_C3_pagination (fun _ => []) 5 none 1 (by decide) rfl).2.1 3 1 [],
   (claim_C3_pagination (fun _ => []) 5 none 1 (by decide) rfl).2.2 0 2 [] (by decide) rfl⟩

theorem claim_C4_type_filter_witness :
    fetchPages 300 (some ["run"]) [[morningRun, eveningRide]] [] =
      List.take 300 ((upstreamYield [[morningRun, eveningRide]]).filter
        (fun a => (["run"] : List String).contains (activitySport a))) ∧
    fetchPages 300 (some ["run"]) [[morningRun, eveningRide]] [] =
      (upstreamYield [[morningRun, eveningRide]]).filter
        (fun a => (["run"] : List String).contains (activitySport a)) ∧
    fetchPages 300 none [[morningRun, eveningRide]] [] =
      List.take 300 (upstreamYield [[morningRun, eveningRide]]) :=
  ⟨(claim_C4_type_filter [[morningRun, eveningRide]] 300 ["run"]).1,
   (claim_C4_type_filter [[morningRun, eveningRide]] 300 ["run"]).2.1 (by decide),
   (claim_C4_type_filter [[morningRun, eveningRide]] 300 ["run"]).2.2⟩

theorem append_ne_empty_of_left (s t : String) (h : s.length ≠ 0) : s ++ t ≠ "" := by
  intro he
  have hlen := congrArg String.length he
  rw [String.length_append] at hlen
  simp at hlen
  omega

/-- C6: for every activity whose UTC start instant parses, the emitted DTEND
instant is the parsed start instant plus elapsed_time seconds (elapsed time,
not moving time), rendered through the same UTC formatter as the DTSTART
instant, whatever the magnitude of elapsed_time. -/
theorem claim_C6_end_is_start_plus_elapsed (a : StravaActivity) (nowMs ms : Int)
    (h : parseISO a.start_date = some ms) :
    ("DTSTART:" ++ formatAsUTC ms) ∈ buildEventLines a nowMs ∧
    ("DTEND:" ++ formatAsUTC (ms + (a.elapsed_time : Int) * 1000)) ∈ buildEventLines a nowMs := by
  constructor
  · refine List.mem_filter.mpr ⟨?_, ?_⟩
    · simp [buildEventRaw, h, formatAsUTCOpt]
    · simpa using append_ne_empty_of_left "DTSTART:" (formatAsUTC ms) (by decide)
  · refine List.mem_filter.mpr ⟨?_, ?_⟩
    · simp [buildEventRaw, h, formatAsUTCOpt]
    · simpa using append_ne_empty_of_left "DTEND:" (formatAsUTC (ms + (a.elapsed_time : Int) * 1000)) (by decide)

theorem claim_C6_witness :
    (("DTSTART:" ++ formatAsUTC 1704096000000) ∈ buildEventLines morningRun 0 ∧
      ("DTEND:" ++ formatAsUTC (1704096000000 + ((1830 : Nat) : Int) * 1000)) ∈ buildEventLines morningRun 0) ∧
    (("DTSTART:" ++ formatAsUTC 1704096000000) ∈ buildEventLines longTrek 0 ∧
      ("DTEND:" ++ formatAsUTC (1704096000000 + ((200000 : Nat) : Int) * 1000)) ∈ buildEventLines longTrek 0) :=
  ⟨claim_C6_end_is_start_plus_elapsed morningRun 0 1704096000000 rfl,
   claim_C6_end_is_start_plus_elapsed longTrek 0 1704096000000 rfl⟩

/-- C7 as stated is false on the code: `Number("abc")` is NaN and `Math.min` /
`Math.max` propagate it, so the query input `sinceDays=abc` (resp. `max=abc`)
produces the effective value NaN — not an integer in [1, 365] (resp. [1, 600]). -/
theorem claim_C7_counterexample :
    effSinceDays (some "abc") = JSNum.nan ∧ effMax (some "abc") = JSNum.nan ∧
    isIntInRange (effSinceDays (some "abc")) 1 365 = false ∧
    isIntInRange (effMax (some "abc")) 1 600 = false :=
  ⟨rfl, rfl, rfl, rfl⟩

/-- C7 amended: absent parameters default to 90 / 300; an input that parses as
a plain decimal number q is clamped to max(1, min(365, q)) (resp. 600), a value
that always lies in [1, 365] (resp. [1, 600]) but need not be an integer for
fractional inputs; a non-numeric input yields NaN, which the clamp propagates
unchanged. -/
theorem claim_C7_amended :
    effSinceDays none = JSNum.num 90 ∧ effMax none = JSNum.num 300 ∧
    (∀ s q, jsNumber s = JSNum.num q →
      effSinceDays (some s) = JSNum.num (max 1 (min 365 q)) ∧
      (1 : ℚ) ≤ max 1 (min 365 q) ∧ max 1 (min 365 q) ≤ 365) ∧
    (∀ s q, jsNumber s = JSNum.num q →
      effMax (some s) = JSNum.num (max 1 (min 600 q)) ∧
      (1 : ℚ) ≤ max 1 (min 600 q) ∧ max 1 (min 600 q) ≤ 600) ∧
    (∀ s, jsNumber s = JSNum.nan → effSinceDays (some s) = JSNum.nan ∧ effMax (some s) = JSNum.nan) := by
  refine ⟨?_, ?_, ?_, ?_, ?_⟩
  · have h1 : min (365 : ℚ) 90 = 90 := min_eq_right (by norm_num)
    have h2 : max (1 : ℚ) 90 = 90 := max_eq_right (by norm_num)
    simp [effSinceDays, jsMin, jsMax, h1, h2]
  · have h1 : min (600 : ℚ) 300 = 300 := min_eq_right (by norm_num)
    have h2 : max (1 : ℚ) 300 = 300 := max_eq_right (by norm_num)
    simp [effMax, jsMin, jsMax, h1, h2]
  · intro s q h
    exact ⟨by simp [effSinceDays, h, jsMin, jsMax], le_max_left 1 _,
      max_le (by norm_num) (min_le_left 365 q)⟩
  · intro s q h
    exact ⟨by simp [effMax, h, jsMin, jsMax], le_max_left 1 _,
      max_le (by norm_num) (min_le_left 600 q)⟩
  · intro s h
    exact ⟨by simp [effSinceDays, h, jsMin, jsMax], by simp [effMax, h, jsMin, jsMax]⟩

theorem claim_C7_amended_witness :
    (effSinceDays (some "") = JSNum.num (max (1 : ℚ) (min 365 0)) ∧
      (1 : ℚ) ≤ max 1 (min 365 0) ∧ max (1 : ℚ) (min 365 0) ≤ 365) ∧
    (effMax (some "") = JSNum.num (max (1 : ℚ) (min 600 0)) ∧
      (1 : ℚ) ≤ max 1 (min 600 0) ∧ max (1 : ℚ) (min 600 0) ≤ 600) ∧
    (effSinceDays (some "abc") = JSNum.nan ∧ effMax (some "abc") = JSNum.nan) :=
  ⟨claim_C7_amended.2.2.1 "" 0 rfl, claim_C7_amended.2.2.2.1 "" 0 rfl,
   claim_C7_amended.2.2.2.2 "abc" rfl⟩

/-- C8: with any of the three credential environment values missing or empty,
obtaining the access token fails with the configuration error message
"Missing STRAVA env vars" and the whole run issues no network request at all —
no token-exchange request and no activity page fetch. -/
theorem claim_C8_missing_credentials (env : Env) (tokenResp : Except String String)
    (pages : List (Except String (List StravaActivity))) (al : Option (List String))
    (maxR : Nat) (nowMs : Int) (h : missingCreds env = true) :
    getAccessTokenRun env tokenResp = (Except.error "Missing STRAVA env vars", []) ∧
    handlerRun env tokenResp pages al maxR nowMs = (errorDoc "Missing STRAVA env vars" nowMs, []) := by
  have h1 : getAccessTokenRun env tokenResp = (Except.error "Missing STRAVA env vars", []) := by
    simp [getAccessTokenRun, h]
  exact ⟨h1, by simp [handlerRun, h1]⟩

theorem claim_C8_missing_credentials_witness :
    getAccessTokenRun ⟨some "id", some "secret", none⟩ (Except.ok "tok") =
      (Except.error "Missing STRAVA env vars", []) ∧
    handlerRun ⟨some "id", some "secret", none⟩ (Except.ok "tok") [] none 300 0 =
      (errorDoc "Missing STRAVA env vars" 0, []) :=
  claim_C8_missing_credentials ⟨some "id", some "secret", none⟩ (Except.ok "tok") [] none 300 0 (by decide)

theorem jsOr_empty_right (x : String) : jsOr x "" = x := by
  by_cases h : x = "" <;> simp [jsOr, h]

/-- C10's parenthetical is false as stated: the empty classification CAN match
a non-empty allow-list. The query `sport=,` yields the allow-list ["", ""] — a
non-empty list containing the empty string — and an activity with neither
sport_type nor type then passes the filter. -/
theorem claim_C10_counterexample :
    parseSports "," = some ["", ""] ∧
    (["", ""] : List String) ≠ [] ∧
    keepActivity (some ["", ""]) untypedActivity = true :=
  ⟨rfl, by decide, rfl⟩

/-- C10 amended: when sport_type is empty or missing, the deprecated type
field is the classification — the filter compares lowercase(sport_type ||
type || ""), the description's Sport line shows sport_type || type — and an
empty classification (both fields empty) never matches an allow-list that does
not contain the empty string (though it does match one that does, e.g. the
allow-list produced by the query `sport=,`). -/
theorem claim_C10_amended (a : StravaActivity) (h : a.sport_type = "") :
    activitySport a = toLowerStr a.type ∧
    (∀ l : List String, keepActivity (some l) a = l.contains (toLowerStr a.type)) ∧
    (descParts a).head? = some ("Sport: " ++ a.type) ∧
    (a.type = "" → ∀ l : List String, ¬ "" ∈ l → keepActivity (some l) a = false) := by
  have hsport : activitySport a = toLowerStr a.type := by
    by_cases ht : a.type = "" <;> simp [activitySport, h, jsOr, ht]
  refine ⟨hsport, ?_, ?_, ?_⟩
  · intro l
    simp [keepActivity, hsport]
  · simp [descParts, h, jsOr]
  · intro ht l hmem
    have : activitySport a = "" := by
      rw [hsport, ht]
      rfl
    simp [keepActivity, this]
    intro hc
    exact hmem hc

theorem claim_C10_amended_witness :
    activitySport legacyRun = toLowerStr legacyRun.type ∧
    keepActivity (some ["run"]) legacyRun = (["run"] : List String).contains (toLowerStr legacyRun.type) ∧
    (descParts legacyRun).head? = some ("Sport: " ++ legacyRun.type) ∧
    keepActivity (some ["run"]) untypedActivity = false :=
  ⟨(claim_C10_amended legacyRun rfl).1,
   (claim_C10_amended legacyRun rfl).2.1 ["run"],
   (claim_C10_amended legacyRun rfl).2.2.1,
   (claim_C10_amended untypedActivity rfl).2.2.2 rfl ["run"] (by decide)⟩


end StravaIcs

namespace StravaIcs

theorem replaceAll_append (pat : Char) (rep : List Char) (l1 l2 : List Char) :
    replaceAll pat rep (l1 ++ l2) = replaceAll pat rep l1 ++ replaceAll pat rep l2 := by
  induction l1 with
  | nil => rfl
  | cons c l ih => simp [replaceAll, ih, List.append_assoc]

theorem icsEscapeL_append (l1 l2 : List Char) :
    icsEscapeL (l1 ++ l2) = icsEscapeL l1 ++ icsEscapeL l2 := by
  simp [icsEscapeL, replaceAll_append]

theorem icsEscapeL_singleton (c : Char) : icsEscapeL [c] = escChar c := by
  by_cases h1 : c = '\\'
  · subst h1; rfl
  by_cases h2 : c = '\n'
  · subst h2; rfl
  by_cases h3 : c = ','
  · subst h3; rfl
  by_cases h4 : c = ';'
  · subst h4; rfl
  simp [icsEscapeL, replaceAll, escChar, h1, h2, h3, h4]

theorem icsEscapeL_cons (c : Char) (l : List Char) :
    icsEscapeL (c :: l) = escChar c ++ icsEscapeL l := by
  have h : c :: l = [c] ++ l := rfl
  rw [h, icsEscapeL_append, icsEscapeL_singleton]

theorem icsUnescapeL_escapeL (l : List Char) : icsUnescapeL (icsEscapeL l) = l := by
  induction l with
  | nil => rfl
  | cons c l ih =>
    rw [icsEscapeL_cons]
    by_cases h1 : c = '\\'
    · subst h1; simpa [escChar, icsUnescapeL] using ih
    by_cases h2 : c = '\n'
    · subst h2; simpa [escChar, icsUnescapeL] using ih
    by_cases h3 : c = ','
    · subst h3; simpa [escChar, icsUnescapeL] using ih
    by_cases h4 : c = ';'
    · subst h4; simpa [escChar, icsUnescapeL] using ih
    have hc : escChar c = [c] := by simp [escChar, h1, h2, h3, h4]
    rw [hc]
    cases he : icsEscapeL l with
    | nil =>
      rw [he] at ih
      have hl : l = [] := by simpa [icsUnescapeL] using ih.symm
      subst hl
      simp [icsUnescapeL]
    | cons d ds =>
      rw [he] at ih
      simp [icsUnescapeL, h1, ih]

/-- C5: escaping every free-text field with `icsEscape` (backslash, then
newline, then comma, then semicolon) followed by the calendar format's
standard unescaping recovers the original text: `icsUnescape ∘ icsEscape`
is the identity on all strings. -/
theorem claim_C5_escape_roundtrip (s : String) : icsUnescape (icsEscape s) = s := by
  cases s with
  | mk data => simp [icsUnescape, icsEscape, icsUnescapeL_escapeL]

/-- C1 as stated is false on the code: for zero activities the assembled
document is not the envelope open lines plus the close line joined by CRLF —
the `events` entry of the joined array is the empty string, which leaves a
blank line before `END:VCALENDAR`. -/
theorem claim_C1_counterexample :
    buildIcs [] 0 ≠ String.intercalate "\r\n" (icsHeaderLines ++ ["END:VCALENDAR"]) := by
  decide

/-- C1 amended: for zero activities the assembled document consists of the
envelope open lines, one empty line (the CRLF-join of the empty event
sequence), and the envelope close line, joined by CRLF — no VEVENT blocks,
but exactly one blank line between the last header line and the close. -/
theorem claim_C1_amended (nowMs : Int) :
    buildIcs [] nowMs = String.intercalate "\r\n" (icsHeaderLines ++ ["", "END:VCALENDAR"]) := by
  rfl

theorem crlfFree_cons {c : Char} {xs : List Char} (h : crlfFree (c :: xs) = true) :
    c ≠ '\r' ∧ c ≠ '\n' ∧ crlfFree xs = true := by
  simp [crlfFree] at h ⊢
  tauto

theorem crlfFree_append {a b : List Char} (h1 : crlfFree a = true) (h2 : crlfFree b = true) :
    crlfFree (a ++ b) = true := by
  simp [crlfFree, List.all_append] at h1 h2 ⊢
  exact ⟨h1, h2⟩

theorem splitCRLF_append_free (xs : List Char) (h : crlfFree xs = true) :
    ∀ rest l ls, splitCRLF rest = l :: ls → splitCRLF (xs ++ rest) = (xs ++ l) :: ls := by
  induction xs with
  | nil =>
    intro rest l ls hr
    simpa using hr
  | cons c xs ih =>
    intro rest l ls hr
    obtain ⟨hc1, _, hxs⟩ := crlfFree_cons h
    cases xs with
    | nil =>
      cases rest with
      | nil =>
        simp [splitCRLF] at hr
        simp [splitCRLF, hr.1, hr.2]
      | cons r rs =>
        have hcond : ¬(c = '\r' ∧ r = '\n') := fun hh => hc1 hh.1
        simp [splitCRLF, hcond, hr]
    | cons x xs2 =>
      have h2 := ih hxs rest l ls hr
      have hcond : ¬(c = '\r' ∧ x = '\n') := fun hh => hc1 hh.1
      simp only [List.cons_append] at h2 ⊢
      simp [splitCRLF, hcond, h2]

theorem splitCRLF_line (xs : List Char) (zs : List Char) (h : crlfFree xs = true) :
    splitCRLF (xs ++ '\r' :: '\n' :: zs) = xs :: splitCRLF zs := by
  have h0 : splitCRLF ('\r' :: '\n' :: zs) = [] :: splitCRLF zs := by
    simp [splitCRLF]
  have h1 := splitCRLF_append_free xs h ('\r' :: '\n' :: zs) [] (splitCRLF zs) h0
  simpa using h1

theorem crlfFree_escChar {c : Char} (h : c ≠ '\r') : crlfFree (escChar c) = true := by
  by_cases h1 : c = '\\'
  · subst h1; decide
  by_cases h2 : c = '\n'
  · subst h2; decide
  by_cases h3 : c = ','
  · subst h3; decide
  by_cases h4 : c = ';'
  · subst h4; decide
  simp [escChar, h1, h2, h3, h4, crlfFree, h]

theorem crlfFree_escape {e : List Char} (h : e.all (fun c => !(c = '\r')) = true) :
    crlfFree (icsEscapeL e) = true := by
  induction e with
  | nil => rfl
  | cons c e ih =>
    rw [List.all_cons, Bool.and_eq_true] at h
    rw [icsEscapeL_cons]
    exact crlfFree_append (crlfFree_escChar (by simpa using h.1)) (ih h.2)

theorem crlfFree_natDigitsAux : ∀ fuel n, crlfFree (natDigitsAux fuel n) = true := by
  intro fuel
  induction fuel with
  | zero => intro n; rfl
  | succ f ih =>
    intro n
    by_cases h : n < 10
    · have hd : crlfFree [Char.ofNat (48 + n)] = true := by
        interval_cases n <;> decide
      simpa [natDigitsAux, h] using hd
    · have h10 : n % 10 < 10 := Nat.mod_lt _ (by norm_num)
      have hd : crlfFree [Char.ofNat (48 + n % 10)] = true := by
        set k := n % 10 with hk
        interval_cases k <;> decide
      rw [show natDigitsAux (f + 1) n = natDigitsAux f (n / 10) ++ [Char.ofNat (48 + n % 10)] from by
        simp [natDigitsAux, h]]
      exact crlfFree_append (ih _) hd

theorem crlfFree_jsStringOfNat (n : Nat) : crlfFree (jsStringOfNat n).data = true :=
  crlfFree_natDigitsAux _ _

theorem crlfFree_jsStringOfInt (i : Int) : crlfFree (jsStringOfInt i).data = true := by
  by_cases h : i < 0
  · rw [show jsStringOfInt i = "-" ++ jsStringOfNat i.natAbs from by simp [jsStringOfInt, h],
      String.data_append]
    exact crlfFree_append (by decide) (crlfFree_jsStringOfNat _)
  · rw [show jsStringOfInt i = jsStringOfNat i.natAbs from by simp [jsStringOfInt, h]]
    exact crlfFree_jsStringOfNat _

theorem crlfFree_jsPad2 {s : String} (h : crlfFree s.data = true) :
    crlfFree (jsPad2 s).data = true := by
  by_cases h0 : s.length = 0
  · rw [show jsPad2 s = "00" from by simp [jsPad2, h0]]
    decide
  · by_cases h1 : s.length = 1
    · rw [show jsPad2 s = "0" ++ s from by simp [jsPad2, h0, h1], String.data_append]
      exact crlfFree_append (by decide) h
    · rw [show jsPad2 s = s from by simp [jsPad2, h0, h1]]
      exact h

theorem crlfFree_formatAsUTC (ms : Int) : crlfFree (formatAsUTC ms).data = true := by
  unfold formatAsUTC
  simp only [String.data_append]
  refine crlfFree_append (crlfFree_append (crlfFree_append (crlfFree_append (crlfFree_append
    (crlfFree_append (crlfFree_append ?_ ?_) ?_) ?_) ?_) ?_) ?_) ?_
  · exact crlfFree_jsStringOfInt _
  · exact crlfFree_jsPad2 (crlfFree_jsStringOfInt _)
  · exact crlfFree_jsPad2 (crlfFree_jsStringOfInt _)
  · decide
  · exact crlfFree_jsPad2 (crlfFree_jsStringOfInt _)
  · exact crlfFree_jsPad2 (crlfFree_jsStringOfInt _)
  · exact crlfFree_jsPad2 (crlfFree_jsStringOfInt _)
  · decide

theorem line_ok_append (xs ys : List Char) (hx : xs ≠ [])
    (h1 : crlfFree xs = true) (h2 : crlfFree ys = true) :
    (!(xs ++ ys).isEmpty && crlfFree (xs ++ ys)) = true := by
  rw [Bool.and_eq_true]
  refine ⟨?_, crlfFree_append h1 h2⟩
  simp [List.isEmpty_iff, hx]

theorem icsContentLines_errorDoc (e : String) (nowMs : Int)
    (hcr : e.data.all (fun c => !(c = '\r')) = true) :
    icsContentLines (errorDoc e nowMs) =
      ["BEGIN:VCALENDAR".data, "PRODID:-//Strava ICS Error//EN".data, "VERSION:2.0".data,
       "BEGIN:VEVENT".data, "SUMMARY:Strava ICS Error".data,
       "DESCRIPTION:".data ++ icsEscapeL e.data,
       "DTSTART:".data ++ (formatAsUTC nowMs).data,
       "DTEND:".data ++ (formatAsUTC (nowMs + 600000)).data,
       "END:VEVENT".data, "END:VCALENDAR".data] := by
  have hesc : crlfFree (icsEscapeL e.data) = true := crlfFree_escape hcr
  have hbig : ∀ X : List Char,
      ("BEGIN:VCALENDAR\r\nPRODID:-//Strava ICS Error//EN\r\nVERSION:2.0\r\nBEGIN:VEVENT\r\nSUMMARY:Strava ICS Error\r\nDESCRIPTION:" : String).data ++ X =
      "BEGIN:VCALENDAR".data ++ '\r' :: '\n' :: ("PRODID:-//Strava ICS Error//EN".data ++ '\r' :: '\n' :: ("VERSION:2.0".data ++ '\r' :: '\n' :: ("BEGIN:VEVENT".data ++ '\r' :: '\n' :: ("SUMMARY:Strava ICS Error".data ++ '\r' :: '\n' :: ("DESCRIPTION:".data ++ X))))) :=
    fun X => rfl
  have hcrd : ∀ X : List Char,
      ("\r\nDTSTART:" : String).data ++ X = '\r' :: '\n' :: ("DTSTART:".data ++ X) :=
    fun X => rfl
  have hcre : ∀ X : List Char,
      ("\r\nDTEND:" : String).data ++ X = '\r' :: '\n' :: ("DTEND:".data ++ X) :=
    fun X => rfl
  have hcrend : ("\r\nEND:VEVENT\r\nEND:VCALENDAR" : String).data =
      '\r' :: '\n' :: ("END:VEVENT".data ++ '\r' :: '\n' :: "END:VCALENDAR".data) := rfl
  unfold icsContentLines errorDoc
  repeat rw [String.data_append]
  repeat rw [List.append_assoc]
  rw [show (icsEscape e).data = icsEscapeL e.data from rfl]
  rw [hbig, hcrd, hcre, hcrend]
  rw [splitCRLF_line "BEGIN:VCALENDAR".data _ (by decide)]
  rw [splitCRLF_line "PRODID:-//Strava ICS Error//EN".data _ (by decide)]
  rw [splitCRLF_line "VERSION:2.0".data _ (by decide)]
  rw [splitCRLF_line "BEGIN:VEVENT".data _ (by decide)]
  rw [splitCRLF_line "SUMMARY:Strava ICS Error".data _ (by decide)]
  rw [splitCRLF_append_free "DESCRIPTION:".data (by decide) _ _ _
    (splitCRLF_line (icsEscapeL e.data) _ hesc)]
  rw [splitCRLF_append_free "DTSTART:".data (by decide) _ _ _
    (splitCRLF_line ((formatAsUTC nowMs).data) _ (crlfFree_formatAsUTC nowMs))]
  rw [splitCRLF_append_free "DTEND:".data (by decide) _ _ _
    (splitCRLF_line ((formatAsUTC (nowMs + 600000)).data) _ (crlfFree_formatAsUTC (nowMs + 600000)))]
  rw [splitCRLF_line "END:VEVENT".data _ (by decide)]
  rw [show splitCRLF ("END:VCALENDAR".data) = ["END:VCALENDAR".data] from by decide]

/-- C9 as stated is false on the code: `icsEscape` never escapes a carriage
return, so a failure whose message contains one (e.g. a token-exchange
rejection whose body text carries a CRLF pair, which `jfetch` splices into the
thrown message) produces a response body with a stray CR inside the
DESCRIPTION content line — not a syntactically valid calendar document. -/
theorem claim_C9_counterexample :
    (handlerRun ⟨some "id", some "secret", some "rt"⟩
        (Except.error "500 Internal Server Error: upstream\r\nbody") [] none 300 0).1 =
      errorDoc "500 Internal Server Error: upstream\r\nbody" 0 ∧
    validSingleEventIcs (errorDoc "500 Internal Server Error: upstream\r\nbody" 0) = false :=
  ⟨rfl, by rfl⟩

/-- C9 amended: on every internal failure (configuration, token exchange, or
page fetch) the response body is the degraded single-event document carrying
the failure's message — any partially fetched activities are discarded — and
whenever that message contains no carriage-return character the body is a
syntactically valid calendar document containing exactly one event whose
DESCRIPTION line carries the escaped message. (A message containing a bare CR
survives `icsEscape` and lands inside the DESCRIPTION content line.) -/
theorem claim_C9_error_document (nowMs : Int) (e : String)
    (hcr : e.data.all (fun c => !(c = '\r')) = true) :
    validSingleEventIcs (errorDoc e nowMs) = true ∧
    ("DESCRIPTION:".data ++ icsEscapeL e.data) ∈ icsContentLines (errorDoc e nowMs) ∧
    (∀ env tokenResp pages al maxR calls,
      getAccessTokenRun env tokenResp = (Except.error e, calls) →
      (handlerRun env tokenResp pages al maxR nowMs).1 = errorDoc e nowMs) ∧
    (∀ env tokenResp tok calls pages al maxR calls2,
      getAccessTokenRun env tokenResp = (Except.ok tok, calls) →
      fetchPagesE maxR al pages 1 [] = (Except.error e, calls2) →
      (handlerRun env tokenResp pages al maxR nowMs).1 = errorDoc e nowMs) := by
  have hlines := icsContentLines_errorDoc e nowMs hcr
  have hesc : crlfFree (icsEscapeL e.data) = true := crlfFree_escape hcr
  refine ⟨?_, ?_, ?_, ?_⟩
  · unfold validSingleEventIcs
    rw [hlines]
    simp only [Bool.and_eq_true]
    refine ⟨⟨⟨⟨?_, ?_⟩, ?_⟩, ?_⟩, ?_⟩
    · rfl
    · rfl
    · rw [List.all_eq_true]
      intro l hl
      fin_cases hl
      · decide
      · decide
      · decide
      · decide
      · decide
      · exact line_ok_append _ _ (by decide) (by decide) hesc
      · exact line_ok_append _ _ (by decide) (by decide) (crlfFree_formatAsUTC nowMs)
      · exact line_ok_append _ _ (by decide) (by decide) (crlfFree_formatAsUTC (nowMs + 600000))
      · decide
      · decide
    · rfl
    · rfl
  · rw [hlines]
    simp
  · intro env tokenResp pages al maxR calls h
    unfold handlerRun
    rw [h]
  · intro env tokenResp tok calls pages al maxR calls2 h1 h2
    unfold handlerRun
    rw [h1, h2]

theorem claim_C9_error_document_witness :
    validSingleEventIcs (errorDoc "boom" 0) = true ∧
    ("DESCRIPTION:".data ++ icsEscapeL "boom".data) ∈ icsContentLines (errorDoc "boom" 0) ∧
    (handlerRun ⟨some "id", some "secret", some "rt"⟩ (Except.error "boom") [] none 300 0).1 =
      errorDoc "boom" 0 ∧
    (handlerRun ⟨some "id", some "secret", some "rt"⟩ (Except.ok "tok")
        [Except.error "boom"] none 300 0).1 = errorDoc "boom" 0 :=
  ⟨(claim_C9_error_document 0 "boom" (by decide)).1,
   (claim_C9_error_document 0 "boom" (by decide)).2.1,
   (claim_C9_error_document 0 "boom" (by decide)).2.2.1 _ _ [] none 300 [NetCall.tokenExchange] rfl,
   (claim_C9_error_document 0 "boom" (by decide)).2.2.2 _ _ "tok" [NetCall.tokenExchange]
     [Except.error "boom"] none 300 [NetCall.activitiesPage 1] rfl rfl⟩

end StravaIcs
